import Mathlib

/-!
# mosdns-v4: listener supervisor, UDP transport loop, memory cache

A shallow embedding of `coremain/server.go` and `pkg/server/udp.go`, together
with a model of the memory cache exercised by
`pkg/cache/mem_cache/mem_cache_test.go`.

Go `error` values are an inductive type; sockets, the DNS library and the
handler pipeline are parameters of the embedded functions; effects on the
outside world are recorded as a trace of events.
-/

namespace Mosdns

/-! ## Go errors -/

/-- Go `error` values that occur in the embedded code. `errorsNew` is the value
of `errors.New(msg)` (and of `fmt.Errorf` without a `%w` operand), `wrapError`
the value of `fmt.Errorf` with one `%w` operand, `ext` an error produced by the
operating system or a library outside this repository. -/
inductive GoError where
  | ErrServerClosed : GoError
  | errMissingDNSHandler : GoError
  | errorsNew (msg : String) : GoError
  | wrapError (msg : String) (err : GoError) : GoError
  | ext (msg : String) : GoError
  deriving DecidableEq, Repr

namespace GoError

/-- The `Error()` method. Modelled from the spec: the texts of the two
sentinels (`pkg/server/server.go`, which declares them, is not among the
sources), the "server closed" sentinel and the configuration error of a
missing DNS handler; they only serve to format a wrapping message. -/
def Error : GoError → String
  | ErrServerClosed => "server closed"
  | errMissingDNSHandler => "missing dns handler"
  | errorsNew msg => msg
  | wrapError msg _ => msg
  | ext msg => msg

/-- The `Unwrap()` method as seen through `errors.Unwrap`. -/
def Unwrap : GoError → Option GoError
  | wrapError _ err => some err
  | _ => none

end GoError

/-- The value of `fmt.Errorf(pfx + "%w", err)`: with an error operand the result
wraps it, with a `nil` operand the verb is printed as a bad verb and nothing is
wrapped. -/
def fmtErrorfW (pfx : String) (err : Option GoError) : GoError :=
  match err with
  | some e => GoError.wrapError (pfx ++ e.Error) e
  | none => GoError.errorsNew (pfx ++ "%!w(<nil>)")

/-! ## DNS messages (`github.com/miekg/dns`) -/

/-- The `dns.MinMsgSize` constant. -/
def MinMsgSize : Nat := 512

/-- A resource record of the additional section, as far as `IsEdns0` looks at
it: an OPT pseudo record (whose header class field is the advertised UDP
payload size) or any other record. -/
inductive RR where
  | OPT (hdrClass : Nat) : RR
  | other (rrtype : Nat) : RR
  deriving DecidableEq, Repr

/-- The part of `dns.Msg` that the transport loop reads. -/
structure Msg where
  Id : Nat
  Extra : List RR
  deriving DecidableEq, Repr

/-- The `UDPSize` method of an OPT record: the header class as a `uint16`. -/
def UDPSize (hdrClass : Nat) : Nat := hdrClass % 2 ^ 16

/-- The loop of `Msg.IsEdns0` over the additional section given from its end:
the first OPT record met. -/
def IsEdns0.scan : List RR → Option Nat
  | [] => none
  | RR.OPT c :: _ => some c
  | RR.other _ :: rest => IsEdns0.scan rest

/-- The `IsEdns0` method: the last OPT record of the additional section (its
header class), or `none` for Go's `nil`. -/
def IsEdns0 (m : Msg) : Option Nat := IsEdns0.scan m.Extra.reverse

/-- `getUDPSize` of `pkg/server/udp.go`. -/
def getUDPSize (m : Msg) : Nat :=
  let s : Nat := 0
  let s := match IsEdns0 m with
    | some opt => UDPSize opt
    | none => s
  let s := if s < MinMsgSize then MinMsgSize else s
  s

/-! ## Collaborators outside the sources

Opaque values of packages whose code is not part of the embedded files. -/

/-- A registered pipeline (a value of the map `m.execs`). -/
structure Executable where
  id : Nat
  deriving DecidableEq, Repr

/-- A `time.Duration`: nanoseconds in an `int64`. -/
abbrev Duration := Int

/-- Conversion to `int64` (two's complement wrap-around). -/
def toInt64 (n : Int) : Int := (n + 2 ^ 63) % 2 ^ 64 - 2 ^ 63

/-- The constant `time.Second`. -/
def Second : Duration := 1000000000

/-- The expression `time.Duration(n) * time.Second` for an unsigned `n`. -/
def seconds (n : Nat) : Duration := toInt64 (toInt64 n * Second)

/-- The constant `defaultQueryTimeout`. -/
def defaultQueryTimeout : Duration := toInt64 (Second * 5)

/-- The constant `defaultIdleTimeout`. -/
def defaultIdleTimeout : Duration := toInt64 (Second * 10)

/-- The fields of `dns_handler.EntryHandlerOpts` set by `startServers` (the
logger apart). -/
structure EntryHandlerOpts where
  Entry : Executable
  QueryTimeout : Duration
  RecursionAvailable : Bool
  deriving DecidableEq, Repr

/-- A `dns_handler.Handler` value. -/
structure Handler where
  id : Nat
  deriving DecidableEq, Repr

/-- The fields of `http_handler.HandlerOpts` set by `startServerListener`. -/
structure HandlerOpts where
  DNSHandler : Option Handler
  Path : String
  SrcIPHeader : String
  deriving DecidableEq, Repr

/-- A `*http_handler.Handler` value. -/
structure HttpHandler where
  id : Nat
  deriving DecidableEq, Repr

/-- The fields of `server.ServerOpts` set by `startServerListener`. -/
structure ServerOpts where
  DNSHandler : Option Handler
  HttpHandler : Option HttpHandler
  Cert : String
  Key : String
  IdleTimeout : Duration
  deriving DecidableEq, Repr

/-- A `*server.Server`. -/
structure Server where
  opts : ServerOpts
  deriving DecidableEq, Repr

/-- Modelled from the spec: `server.NewServer` (`pkg/server/server.go` is not
among the sources) builds the listener-protocol object bundling the DNS
handler, the HTTP handler, TLS material and idle timeout. -/
def NewServer (opts : ServerOpts) : Server := { opts := opts }

/-- A `net.PacketConn` opened by `net.ListenPacket`. -/
structure PacketConn where
  network : String
  address : String
  fd : Nat
  deriving DecidableEq, Repr

/-- A `net.Listener`: one opened by `net.Listen`, or a `proxyproto.Listener`
around another one with the policy `requirePP`. -/
inductive Listener where
  | net (network address : String) (fd : Nat) : Listener
  | proxyproto (inner : Listener) : Listener
  deriving DecidableEq, Repr

/-! ## Listener supervisor (`coremain/server.go`) -/

/-- The fields of `ServerListenerConfig` read by `startServerListener`. -/
structure ServerListenerConfig where
  Protocol : String
  Addr : String
  Unix : Bool
  Cert : String
  Key : String
  URLPath : String
  GetUserIPFromHeader : String
  ProxyProtocol : Bool
  IdleTimeout : Nat
  deriving DecidableEq, Repr

/-- The fields of `ServerConfig` read by `startServers`. -/
structure ServerConfig where
  Exec : String
  Timeout : Nat
  Listeners : List ServerListenerConfig
  deriving DecidableEq, Repr

/-- The closure `run` chosen by the protocol switch: which serve loop of which
server runs on which socket. -/
inductive ServeLoop where
  | ServeUDP (s : Server) (conn : PacketConn) : ServeLoop
  | ServeTCP (s : Server) (l : Listener) : ServeLoop
  | ServeTLS (s : Server) (l : Listener) : ServeLoop
  | ServeHTTP (s : Server) (l : Listener) : ServeLoop
  | ServeHTTPS (s : Server) (l : Listener) : ServeLoop
  deriving DecidableEq, Repr

/-- What `startServers` does to the world outside, in program order. -/
inductive Event where
  | loggerInfo (msg : String) (fields : List (String × String)) : Event
  | ListenPacket (network address : String) : Event
  | Listen (network address : String) : Event
  | Remove (name : String) : Event
  | Chmod (name : String) (mode : Nat) : Event
  | Close (l : Listener) : Event
  | goSignalHandler (address : String) : Event
  | Attach (run : ServeLoop) : Event
  deriving DecidableEq, Repr

abbrev Trace := List Event

/-- An event that asks the operating system for a socket. -/
def Event.bindsSocket : Event → Bool
  | Event.ListenPacket _ _ => true
  | Event.Listen _ _ => true
  | _ => false

/-- An event that registers a serve loop with the lifecycle coordinator. -/
def Event.attachesLoop : Event → Bool
  | Event.Attach _ => true
  | _ => false

/-- The outside world: the answer of every call that leaves the embedded code.
Each answer may depend on everything done so far. -/
structure Env where
  NewEntryHandler : EntryHandlerOpts → Except GoError Handler
  NewHandler : HandlerOpts → Except GoError HttpHandler
  ListenPacket : Trace → String → String → Except GoError PacketConn
  Listen : Trace → String → String → Except GoError Listener
  /-- Go's `os.Remove`: `none` for `nil`, else the error and whether
  `os.IsNotExist` holds of it. -/
  Remove : Trace → String → Option (GoError × Bool)
  Chmod : Trace → String → Nat → Option GoError

/-- `createUnixListener` of `coremain/server.go`. -/
def createUnixListener (env : Env) (network address : String) (tr : Trace) :
    Except GoError Listener × Trace :=
  let r := env.Remove tr address
  let tr := tr ++ [Event.Remove address]
  match r with
  | some (err, false) => (Except.error err, tr)
  | _ =>
    let r := env.Listen tr network address
    let tr := tr ++ [Event.Listen network address]
    match r with
    | Except.error err => (Except.error err, tr)
    | Except.ok l =>
      let r := env.Chmod tr address 0o777
      let tr := tr ++ [Event.Chmod address 0o777]
      match r with
      | some err => (Except.error err, tr ++ [Event.Close l])
      | none => (Except.ok l, tr ++ [Event.goSignalHandler address])

/-- The statement `if cfg.ProxyProtocol { l = &proxyproto.Listener{...} }`. -/
def wrapProxyProtocol (cfg : ServerListenerConfig) (l : Listener) : Listener :=
  if cfg.ProxyProtocol then Listener.proxyproto l else l

/-- The tail of `startServerListener`: `m.sc.Attach(...)` and `return nil`. -/
def attachRun (run : ServeLoop) (tr : Trace) : Option GoError × Trace :=
  (none, tr ++ [Event.Attach run])

/-- `startServerListener` of `coremain/server.go`: the returned error (`none`
for `nil`) and the trace extended by what the call did. -/
def startServerListener (env : Env) (cfg : ServerListenerConfig)
    (dnsHandler : Option Handler) (socketFile : String) (tr : Trace) :
    Option GoError × Trace :=
  if cfg.Addr.length == 0 then
    (some (GoError.errorsNew "no address to bind"), tr)
  else
    let tr := tr ++ [Event.loggerInfo "starting server"
      [("proto", cfg.Protocol), ("addr", cfg.Addr)]]
    let idleTimeout :=
      if cfg.IdleTimeout > 0 then seconds cfg.IdleTimeout else defaultIdleTimeout
    let httpOpts : HandlerOpts :=
      { DNSHandler := dnsHandler
        Path := cfg.URLPath
        SrcIPHeader := cfg.GetUserIPFromHeader }
    match env.NewHandler httpOpts with
    | Except.error err => (some (fmtErrorfW "failed to init http handler, " (some err)), tr)
    | Except.ok httpHandler =>
      let opts : ServerOpts :=
        { DNSHandler := dnsHandler
          HttpHandler := some httpHandler
          Cert := cfg.Cert
          Key := cfg.Key
          IdleTimeout := idleTimeout }
      let s := NewServer opts
      if cfg.Protocol = "" ∨ cfg.Protocol = "udp" then
        let r := env.ListenPacket tr "udp" cfg.Addr
        let tr := tr ++ [Event.ListenPacket "udp" cfg.Addr]
        match r with
        | Except.error err => (some err, tr)
        | Except.ok conn => attachRun (ServeLoop.ServeUDP s conn) tr
      else if cfg.Protocol = "tcp" then
        let (r, tr) :=
          if cfg.Unix then createUnixListener env "unix" socketFile tr
          else (env.Listen tr "tcp" cfg.Addr, tr ++ [Event.Listen "tcp" cfg.Addr])
        match r with
        | Except.error err => (some err, tr)
        | Except.ok l => attachRun (ServeLoop.ServeTCP s (wrapProxyProtocol cfg l)) tr
      else if cfg.Protocol = "tls" ∨ cfg.Protocol = "dot" then
        let r := env.Listen tr "tcp" cfg.Addr
        let tr := tr ++ [Event.Listen "tcp" cfg.Addr]
        match r with
        | Except.error err => (some err, tr)
        | Except.ok l => attachRun (ServeLoop.ServeTLS s (wrapProxyProtocol cfg l)) tr
      else if cfg.Protocol = "http" then
        let (r, tr) := createUnixListener env "unix" socketFile tr
        match r with
        | Except.error err => (some err, tr)
        | Except.ok l => attachRun (ServeLoop.ServeHTTP s (wrapProxyProtocol cfg l)) tr
      else if cfg.Protocol = "https" ∨ cfg.Protocol = "doh" then
        let r := env.Listen tr "tcp" cfg.Addr
        let tr := tr ++ [Event.Listen "tcp" cfg.Addr]
        match r with
        | Except.error err => (some err, tr)
        | Except.ok l => attachRun (ServeLoop.ServeHTTPS s (wrapProxyProtocol cfg l)) tr
      else
        (some (GoError.errorsNew ("unknown protocol: [" ++ cfg.Protocol ++ "]")), tr)

/-- The loop `for _, lc := range cfg.Listeners` of `startServers`. -/
def startServers.loop (env : Env) (dnsHandler : Option Handler) :
    List ServerListenerConfig → Trace → Option GoError × Trace
  | [], tr => (none, tr)
  | lc :: rest, tr =>
    match startServerListener env lc dnsHandler "/tmp/go-unix-socket" tr with
    | (some err, tr) => (some err, tr)
    | (none, tr) => startServers.loop env dnsHandler rest tr

/-- Indexing the Go map `m.execs`, given as its key/value pairs (a value may
be `nil`): the zero value `nil` when the key is absent. -/
def mapIndex (execs : List (String × Option Executable)) (key : String) :
    Option Executable :=
  match execs.find? (fun kv => kv.1 == key) with
  | some kv => kv.2
  | none => none

/-- `startServers` of `coremain/server.go`, started in a fresh world. -/
def startServers (env : Env) (execs : List (String × Option Executable))
    (cfg : ServerConfig) : Option GoError × Trace :=
  if cfg.Listeners.length == 0 then
    (some (GoError.errorsNew "no server listener is configured"), [])
  else if cfg.Exec.length == 0 then
    (some (GoError.errorsNew "empty entry"), [])
  else
    match mapIndex execs cfg.Exec with
    | none => (some (GoError.errorsNew ("cannot find entry " ++ cfg.Exec)), [])
    | some entry =>
      let queryTimeout :=
        if cfg.Timeout > 0 then seconds cfg.Timeout else defaultQueryTimeout
      let dnsHandlerOpts : EntryHandlerOpts :=
        { Entry := entry
          QueryTimeout := queryTimeout
          RecursionAvailable := true }
      match env.NewEntryHandler dnsHandlerOpts with
      | Except.error err =>
        (some (fmtErrorfW "failed to init entry handler, " (some err)), [])
      | Except.ok dnsHandler =>
        startServers.loop env (some dnsHandler) cfg.Listeners []

/-! ### The serve loop registered with the lifecycle coordinator

The closure handed to `m.sc.Attach` runs `run()` on a goroutine of its own and
waits in a `select` for the loop's result or for the shared close signal. -/

/-- The case of the `select` statement that is taken. -/
inductive SelectCase where
  /-- The case `err := <-errChan`: `run()` has returned `err`. -/
  | errChan (err : Option GoError) : SelectCase
  /-- The case `<-closeSignal`. -/
  | closeSignal : SelectCase
  deriving DecidableEq, Repr

/-- A call the closure makes on the coordinator. -/
inductive ScCall where
  | SendCloseSignal (cause : GoError) : ScCall
  | done : ScCall
  deriving DecidableEq, Repr

/-- The body of the closure from the `select` on: the calls made when the given
case is taken, the deferred `done()` last. -/
def attached (sel : SelectCase) : List ScCall :=
  let body :=
    match sel with
    | SelectCase.errChan err => [ScCall.SendCloseSignal (fmtErrorfW "server exited, " err)]
    | SelectCase.closeSignal => []
  body ++ [ScCall.done]

/-- The cases of the `select` that can proceed: `runResult` is `some err` once
`run()` has returned `err` (the buffered send on `errChan` has happened),
`closeSignalFired` tells whether the shared close signal has fired. -/
def selectReady (runResult : Option (Option GoError)) (closeSignalFired : Bool) :
    List SelectCase :=
  (match runResult with
    | some err => [SelectCase.errChan err]
    | none => []) ++
  (if closeSignalFired then [SelectCase.closeSignal] else [])

/-- One run of the closure: `none` while the `select` blocks (no case can
proceed), else the calls made; `pick` stands for Go's choice among several
cases that can proceed. -/
def attachedRun (runResult : Option (Option GoError)) (closeSignalFired : Bool)
    (pick : Nat) : Option (List ScCall) :=
  match selectReady runResult closeSignalFired with
  | [] => none
  | c :: cs => some (attached ((c :: cs).getD (pick % (c :: cs).length) c))

/-! ## UDP transport loop (`pkg/server/udp.go`) -/

abbrev Bytes := List Nat

/-- A `net.IP`; the empty list is `nil`. -/
abbrev IP := List Nat

/-- A `net.Addr`, given by its `String()` form. -/
abbrev Addr := String

/-- A datagram as the socket delivers it: payload, sender, and the destination
IP and interface index of its control message. -/
structure Packet where
  payload : Bytes
  src : Addr
  dst : IP
  ifIndex : Int
  deriving DecidableEq, Repr

/-- One read on the socket: a datagram, or a failure together with what
`s.Closed()` answers when the loop looks at it. -/
inductive SockRead where
  | packet (p : Packet) : SockRead
  | failed (err : GoError) (closed : Bool) : SockRead
  deriving DecidableEq, Repr

/-- The two implementations of the interface `cmcUDPConn`. -/
inductive cmcUDPConn where
  /-- The adapter returned by `newCmc(uc)`. -/
  | ofNewCmc : cmcUDPConn
  /-- The adapter returned by `newDummyCmc(c)`. -/
  | dummyCmcWrapper : cmcUDPConn
  deriving DecidableEq, Repr

/-- The results `(n, dst, IfIndex, src)` of a successful `readFrom`. -/
structure ReadResult where
  n : Nat
  dst : IP
  IfIndex : Int
  src : Addr
  deriving DecidableEq, Repr

/-- `dummyCmcWrapper.readFrom` on a datagram, into a buffer of `blen` bytes:
`dst` and `IfIndex` keep their zero values. -/
def dummyCmcWrapper.readFrom (blen : Nat) (p : Packet) : ReadResult :=
  { n := min p.payload.length blen, dst := [], IfIndex := 0, src := p.src }

/-- Modelled from the spec: `readFrom` of the adapter built by `newCmc`
(its file is not among the sources): each read also yields the destination IP
and interface index the packet arrived on. -/
def cmc.readFrom (blen : Nat) (p : Packet) : ReadResult :=
  { n := min p.payload.length blen, dst := p.dst, IfIndex := p.ifIndex, src := p.src }

/-- Dispatch of `cmc.readFrom(rb)` on the interface value. -/
def cmcUDPConn.readFrom : cmcUDPConn → Nat → Packet → ReadResult
  | cmcUDPConn.ofNewCmc => cmc.readFrom
  | cmcUDPConn.dummyCmcWrapper => dummyCmcWrapper.readFrom

/-- The `query_context.RequestMeta` built for a query. -/
structure RequestMeta where
  ClientAddr : String
  deriving DecidableEq, Repr

/-- A `zap` field of a log entry. -/
inductive Field where
  | zapString (key val : String) : Field
  | zapError (err : GoError) : Field
  | zapBinary (key : String) (val : Bytes) : Field
  | zapStringer (key val : String) : Field
  | zapMsg (key : String) (val : Msg) : Field
  deriving DecidableEq, Repr

/-- The variables a per-query goroutine captures. -/
structure Task where
  q : Msg
  clientAddr : String
  localAddr : IP
  ifIndex : Int
  remoteAddr : Addr
  deriving DecidableEq, Repr

/-- What the loop and the per-query goroutines do, as seen from outside. -/
inductive UDPEvent where
  | Close : UDPEvent
  | trackCloser (add : Bool) : UDPEvent
  | cancel : UDPEvent
  | GetBuf (size : Nat) : UDPEvent
  | Release : UDPEvent
  | newCmc : UDPEvent
  /-- The `i`-th call of `cmc.readFrom` in the loop. -/
  | readFrom (i : Nat) : UDPEvent
  | loggerError (msg : String) (fields : List Field) : UDPEvent
  | loggerWarn (msg : String) (fields : List Field) : UDPEvent
  /-- The statement `go func() {...}()` for the datagram of the `i`-th read. -/
  | go (i : Nat) (t : Task) : UDPEvent
  | ServeDNS (q : Msg) (reqMeta : RequestMeta) : UDPEvent
  | writeTo (b : Bytes) (src : IP) (IfIndex : Int) (dst : Addr) : UDPEvent
  deriving DecidableEq, Repr

/-- The socket handed to `ServeUDP`: whether it is a `*net.UDPConn` and whether
its local address is the unspecified one. -/
structure Socket where
  isUDPConn : Bool
  localIPUnspecified : Bool
  deriving DecidableEq, Repr

/-- The collaborators of the loop: address and message parsing, the handler
pipeline, message truncation and packing, the socket write. The handler and
the write are told which datagram they serve (its read index), so their
answers need not be a function of the query alone. -/
structure UDPEnv where
  newCmc : Option GoError
  SplitHostPort : String → Except GoError (String × String)
  Unpack : Bytes → Except GoError Msg
  ServeDNS : Handler → Nat → Msg → RequestMeta → Option Msg × Option GoError
  Truncate : Msg → Nat → Msg
  PackBuffer : Msg → Except GoError Bytes
  writeTo : Nat → Bytes → IP → Int → Addr → Option GoError

/-- How a call of `ServeUDP` ends: with an error value, or at the `return`
statement of the address-parse failure branch, which names no value. -/
inductive Return where
  | value (err : GoError) : Return
  | noValue : Return
  deriving DecidableEq, Repr

/-- The body of the per-query goroutine for the datagram of read `i`. -/
def handleQuery (env : UDPEnv) (handler : Handler) (i : Nat) (t : Task) :
    List UDPEvent :=
  let reqMeta : RequestMeta := { ClientAddr := t.clientAddr }
  let ev := [UDPEvent.ServeDNS t.q reqMeta]
  match env.ServeDNS handler i t.q reqMeta with
  | (_, some err) => ev ++ [UDPEvent.loggerWarn "handler err" [Field.zapError err]]
  | (none, none) => ev
  | (some r, none) =>
    let r := env.Truncate r (getUDPSize t.q)
    match env.PackBuffer r with
    | Except.error err =>
      ev ++ [UDPEvent.loggerError "failed to unpack handler's response"
        [Field.zapError err, Field.zapMsg "msg" r]]
    | Except.ok b =>
      let ev := ev ++ [UDPEvent.writeTo b t.localAddr t.ifIndex t.remoteAddr]
      match env.writeTo i b t.localAddr t.ifIndex t.remoteAddr with
      | some err =>
        ev ++ [UDPEvent.loggerWarn "failed to write response"
          [Field.zapStringer "client" t.remoteAddr, Field.zapError err], UDPEvent.Release]
      | none => ev ++ [UDPEvent.Release]

/-- The `for` loop of `ServeUDP` over the reads the socket delivers, `i` being
the index of the next read and `blen` the length of the read buffer: how the
loop returns (`none` when it is blocked in `readFrom`, every given read
consumed) and the events of the loop's own goroutine. -/
def ServeUDP.loop (env : UDPEnv) (w : cmcUDPConn) (blen : Nat) :
    Nat → List SockRead → List UDPEvent → Option Return × List UDPEvent
  | i, [], ev => (none, ev ++ [UDPEvent.readFrom i])
  | i, SockRead.failed err closed :: _, ev =>
    let ev := ev ++ [UDPEvent.readFrom i]
    if closed then (some (Return.value GoError.ErrServerClosed), ev)
    else (some (Return.value (fmtErrorfW "unexpected read err: " (some err))), ev)
  | i, SockRead.packet p :: rest, ev =>
    let ev := ev ++ [UDPEvent.readFrom i]
    let rr := w.readFrom blen p
    match env.SplitHostPort rr.src with
    | Except.error err =>
      (some Return.noValue, ev ++ [UDPEvent.loggerError "failed to parse request remote addr"
        [Field.zapString "addr" rr.src, Field.zapError err]])
    | Except.ok (clientAddr, _) =>
      match env.Unpack (p.payload.take rr.n) with
      | Except.error err =>
        ServeUDP.loop env w blen (i + 1) rest
          (ev ++ [UDPEvent.loggerWarn "invalid msg"
            [Field.zapError err, Field.zapBinary "msg" (p.payload.take rr.n),
             Field.zapStringer "from" rr.src]])
      | Except.ok q =>
        ServeUDP.loop env w blen (i + 1) rest
          (ev ++ [UDPEvent.go i
            { q := q, clientAddr := clientAddr, localAddr := rr.dst,
              ifIndex := rr.IfIndex, remoteAddr := rr.src }])

/-- The choice of the adapter in `ServeUDP`: `newCmc(uc)`, which may fail, for
a `*net.UDPConn` bound to the unspecified address, else `newDummyCmc(c)`. -/
def ServeUDP.chooseCmc (env : UDPEnv) (c : Socket) :
    Except GoError cmcUDPConn × List UDPEvent :=
  if c.isUDPConn && c.localIPUnspecified then
    match env.newCmc with
    | some err => (Except.error err, [UDPEvent.newCmc])
    | none => (Except.ok cmcUDPConn.ofNewCmc, [UDPEvent.newCmc])
  else
    (Except.ok cmcUDPConn.dummyCmcWrapper, [])

/-- The calls deferred by `ServeUDP` once the read buffer is taken, in the
order they run. -/
def ServeUDP.deferred : List UDPEvent :=
  [UDPEvent.Release, UDPEvent.cancel, UDPEvent.trackCloser false, UDPEvent.Close]

/-- Running the deferred calls when the function returns; a loop blocked in
`readFrom` has not returned. -/
def ServeUDP.finish (r : Option Return × List UDPEvent) : Option Return × List UDPEvent :=
  match r with
  | (none, ev) => (none, ev)
  | (some ret, ev) => (some ret, ev ++ ServeUDP.deferred)

/-- `ServeUDP` of `pkg/server/udp.go`. `trackOk` is the answer of
`s.trackCloser(&closer, true)`, `reads` what the socket delivers. -/
def ServeUDP (env : UDPEnv) (s : Server) (c : Socket) (trackOk : Bool)
    (reads : List SockRead) : Option Return × List UDPEvent :=
  match s.opts.DNSHandler with
  | none => (some (Return.value GoError.errMissingDNSHandler), [UDPEvent.Close])
  | some _ =>
    let ev := [UDPEvent.trackCloser true]
    if !trackOk then
      (some (Return.value GoError.ErrServerClosed), ev ++ [UDPEvent.Close])
    else
      let ev := ev ++ [UDPEvent.GetBuf (64 * 1024)]
      match ServeUDP.chooseCmc env c with
      | (Except.error err, ev') =>
        ServeUDP.finish
          (some (Return.value (fmtErrorfW "failed to control socket cmsg, " (some err))),
            ev ++ ev')
      | (Except.ok w, ev') =>
        ServeUDP.finish (ServeUDP.loop env w (64 * 1024) 0 reads (ev ++ ev'))

/-- A call of `cmc.writeTo`. -/
def UDPEvent.isWrite : UDPEvent → Bool
  | UDPEvent.writeTo _ _ _ _ => true
  | _ => false

/-- A statement `go func() {...}()`. -/
def UDPEvent.isGo : UDPEvent → Bool
  | UDPEvent.go _ _ => true
  | _ => false

/-- A datagram whose sender address parses and whose bytes, as far as they fit
the read buffer of `blen` bytes, fail to unpack. -/
def UDPEnv.malformed (env : UDPEnv) (blen : Nat) (p : Packet) : Bool :=
  match env.SplitHostPort p.src, env.Unpack (p.payload.take (min p.payload.length blen)) with
  | Except.ok _, Except.error _ => true
  | _, _ => false

/-- The events of the per-query goroutines a run has started, goroutine by
goroutine in the order they were started. -/
def taskEvents (env : UDPEnv) (handler : Handler) : List UDPEvent → List (List UDPEvent)
  | [] => []
  | UDPEvent.go i t :: rest => handleQuery env handler i t :: taskEvents env handler rest
  | _ :: rest => taskEvents env handler rest

/-! ## Memory cache (`pkg/cache/mem_cache`)

Only the test file of the package is among the sources; the cache itself is
modelled from its specification. -/

/-- A point in time (`time.Time`), in nanoseconds. -/
abbrev Time := Int

/-- Modelled from the spec: the cache entry (`mem_cache.go` is not among the
sources): key, value, stored-at timestamp, expires-at timestamp. -/
structure Elem where
  key : String
  v : Bytes
  storedTime : Time
  expirationTime : Time
  deriving DecidableEq, Repr

/-- Modelled from the spec: the cache (`mem_cache.go` is not among the
sources) owns a capacity bound (maximum entry count, 0 meaning unbounded by
count), an LRU ordering over its entries (here most recently used first) and
an optional sweep interval. -/
structure MemCache where
  capacity : Nat
  cleanerInterval : Int
  lru : List Elem
  deriving DecidableEq, Repr

/-- Modelled from the spec: `NewMemCache` (`mem_cache.go` is not among the
sources) constructs a cache with a maximum entry capacity and an optional
cleanup interval; it holds no entry. -/
def NewMemCache (size : Nat) (cleanerInterval : Int) : MemCache :=
  { capacity := size, cleanerInterval := cleanerInterval, lru := [] }

/-- Modelled from the spec: eviction (`mem_cache.go` and its LRU list are not
among the sources) removes the least recently used entry, `n` times. -/
def evictOldest : Nat → List Elem → List Elem
  | 0, l => l
  | n + 1, l => evictOldest n l.dropLast

/-- Modelled from the spec: `Store` (`mem_cache.go` is not among the sources)
inserts or overwrites the entry for `key` as the most recently used one; if
the entry count then exceeds the capacity, the least recently used entries
are evicted until the count is within the bound. Capacity 0 is unbounded. -/
def MemCache.Store (c : MemCache) (key : String) (v : Bytes)
    (storedTime expirationTime : Time) : MemCache :=
  let e : Elem :=
    { key := key, v := v, storedTime := storedTime, expirationTime := expirationTime }
  let l := e :: c.lru.filter (fun x => x.key != key)
  let l := if c.capacity = 0 then l else evictOldest (l.length - c.capacity) l
  { c with lru := l }

/-- Modelled from the spec: `Get` (`mem_cache.go` is not among the sources), at
current time `now`, returns the entry if present and not expired, promoting it
to most recently used; it returns "not found" if absent or expired, and an
expired entry met this way is evicted. The result is `(value, storedAt,
found)` and the cache afterwards. -/
def MemCache.Get (c : MemCache) (now : Time) (key : String) :
    (Bytes × Time × Bool) × MemCache :=
  match c.lru.find? (fun x => x.key == key) with
  | none => (([], 0, false), c)
  | some e =>
    if e.expirationTime < now then
      (([], 0, false), { c with lru := c.lru.filter (fun x => x.key != key) })
    else
      ((e.v, e.storedTime, true), { c with lru := e :: c.lru.filter (fun x => x.key != key) })

/-- Modelled from the spec: `Len` (`mem_cache.go` is not among the sources) is
the current number of entries. -/
def MemCache.Len (c : MemCache) : Nat := c.lru.length

/-- The arguments of one `Store` call. -/
structure StoreCall where
  key : String
  v : Bytes
  storedTime : Time
  expirationTime : Time
  deriving DecidableEq, Repr

/-- A sequence of `Store` calls on a cache, in order. -/
def MemCache.storeAll (c : MemCache) : List StoreCall → MemCache
  | [] => c
  | s :: rest => (c.Store s.key s.v s.storedTime s.expirationTime).storeAll rest

/-- The `Store` calls of the second loop of `Test_memCache`: keys
`strconv.Itoa(i)` for `i` below `1024*4`, an empty value, `now i` being what
`time.Now()` answers in round `i` and the entry living 200 milliseconds. -/
def Test_memCache.stores (now : Nat → Time) : List StoreCall :=
  (List.range (1024 * 4)).map fun i =>
    { key := toString i, v := [], storedTime := now i,
      expirationTime := now i + 200 * 1000000 }

/-! ## Sample worlds and inputs -/

/-- A world in which every call that leaves the supervisor succeeds. -/
def Env.allOk : Env where
  NewEntryHandler := fun _ => Except.ok { id := 0 }
  NewHandler := fun _ => Except.ok { id := 0 }
  ListenPacket := fun tr network address =>
    Except.ok { network := network, address := address, fd := tr.length }
  Listen := fun tr network address => Except.ok (Listener.net network address tr.length)
  Remove := fun _ _ => none
  Chmod := fun _ _ _ => none

/-- A listener configuration with the given protocol tag, bind address and
Unix flag, its other fields at their zero values. -/
def listenerConfig (protocol addr : String) (unix : Bool) : ServerListenerConfig :=
  { Protocol := protocol, Addr := addr, Unix := unix, Cert := "", Key := "",
    URLPath := "", GetUserIPFromHeader := "", ProxyProtocol := false, IdleTimeout := 0 }

/-- A server with a DNS handler and no HTTP handler. -/
def Server.sample : Server :=
  NewServer { DNSHandler := some { id := 1 }, HttpHandler := none, Cert := "", Key := "",
              IdleTimeout := defaultIdleTimeout }

/-- A socket bound to one address: the loop uses the dummy adapter. -/
def Socket.sample : Socket := { isUDPConn := true, localIPUnspecified := false }

/-- Splitting an address at its last colon. -/
def splitLastColon (a : String) : Except GoError (String × String) :=
  let port := a.data.reverse.takeWhile (fun ch => ch != ':')
  if port.length = a.data.length then Except.error (GoError.ext "missing port in address")
  else Except.ok (String.mk (a.data.reverse.drop (port.length + 1)).reverse,
    String.mk port.reverse)

/-- A world for the UDP loop: an address parses when it has a colon, a payload
unpacks when it has the 12 bytes of a DNS header, the handler answers every
query with the query itself, packing and writing succeed. -/
def UDPEnv.sample : UDPEnv where
  newCmc := none
  SplitHostPort := splitLastColon
  Unpack := fun b =>
    if b.length < 12 then Except.error (GoError.ext "dns: overflow unpacking uint16")
    else Except.ok { Id := 256 * b.getD 0 0 + b.getD 1 0, Extra := [] }
  ServeDNS := fun _ _ q _ => (some q, none)
  Truncate := fun r _ => r
  PackBuffer := fun r => Except.ok [r.Id / 256, r.Id % 256]
  writeTo := fun _ _ _ _ _ => none

/-- A datagram too short to be a DNS message. -/
def Packet.short : Packet :=
  { payload := [1, 2, 3], src := "192.0.2.1:4000", dst := [], ifIndex := 0 }

/-- A datagram holding a DNS header with the id 7. -/
def Packet.query : Packet :=
  { payload := [0, 7, 1, 0, 0, 1, 0, 0, 0, 0, 0, 0], src := "192.0.2.9:5000",
    dst := [192, 0, 2, 53], ifIndex := 2 }

/-! # Theorems -/

/-! ## `getUDPSize` -/

theorem IsEdns0.scan_eq_none {l : List RR} (h : ∀ c, RR.OPT c ∉ l) :
    IsEdns0.scan l = none := by
  induction l with
  | nil => rfl
  | cons x xs ih =>
    cases x with
    | OPT c => exact absurd (List.mem_cons_self _ _) (h c)
    | other t =>
      simp only [IsEdns0.scan]
      exact ih (fun c hc => h c (List.mem_cons_of_mem _ hc))

theorem IsEdns0.scan_append {l : List RR} (h : ∀ c, RR.OPT c ∉ l) (c : Nat) (r : List RR) :
    IsEdns0.scan (l ++ RR.OPT c :: r) = some c := by
  induction l with
  | nil => rfl
  | cons x xs ih =>
    cases x with
    | OPT c' => exact absurd (List.mem_cons_self _ _) (h c')
    | other t =>
      simp only [List.cons_append, IsEdns0.scan]
      exact ih (fun c' hc => h c' (List.mem_cons_of_mem _ hc))

theorem IsEdns0_of_last_OPT {m : Msg} {pre post : List RR} {c : Nat}
    (hm : m.Extra = pre ++ RR.OPT c :: post) (hpost : ∀ c', RR.OPT c' ∉ post) :
    IsEdns0 m = some c := by
  unfold IsEdns0
  rw [hm, List.reverse_append, List.reverse_cons, List.append_assoc]
  exact IsEdns0.scan_append (fun c' hc => hpost c' (List.mem_reverse.mp hc)) c _

theorem IsEdns0_of_no_OPT {m : Msg} (h : ∀ c, RR.OPT c ∉ m.Extra) : IsEdns0 m = none := by
  unfold IsEdns0
  exact IsEdns0.scan_eq_none (fun c hc => h c (List.mem_reverse.mp hc))

theorem UDPSize_lt (c : Nat) : UDPSize c < 65536 := by
  unfold UDPSize
  omega

theorem getUDPSize_some {m : Msg} {c : Nat} (h : IsEdns0 m = some c) :
    getUDPSize m = max (UDPSize c) 512 := by
  simp only [getUDPSize, h, MinMsgSize]
  split <;> omega

theorem getUDPSize_none {m : Msg} (h : IsEdns0 m = none) : getUDPSize m = 512 := by
  simp [getUDPSize, h, MinMsgSize]

theorem UDPSize_of_lt {c : Nat} (hc : c < 65536) : UDPSize c = c := by
  unfold UDPSize
  omega

/-- C1: for every query `m`, `getUDPSize m` is `max S 512` when the OPT record
of `m` (the one `IsEdns0` returns, the last OPT record of the additional
section) advertises the UDP size `S`, the 16-bit class the record carries,
and is `512` when `m` carries no OPT record; so the limit lies between 512 and
65535 and is not below an advertised size of at least 512. -/
theorem getUDPSize_spec (m : Msg) :
    (∀ S, S < 65536 → IsEdns0 m = some S → getUDPSize m = max S 512) ∧
    (IsEdns0 m = none → getUDPSize m = 512) ∧
    (∀ pre post S, S < 65536 → m.Extra = pre ++ RR.OPT S :: post →
      (∀ c', RR.OPT c' ∉ post) →
      getUDPSize m = max S 512 ∧ (512 ≤ S → S ≤ getUDPSize m)) ∧
    ((∀ c, RR.OPT c ∉ m.Extra) → getUDPSize m = 512) ∧
    (∀ c, IsEdns0 m = some c → getUDPSize m = max (c % 65536) 512) ∧
    512 ≤ getUDPSize m ∧ getUDPSize m ≤ 65535 := by
  refine ⟨?_, getUDPSize_none, ?_, ?_, ?_, ?_, ?_⟩
  · intro S hS h
    rw [getUDPSize_some h, UDPSize_of_lt hS]
  · intro pre post S hS hm hpost
    have h := getUDPSize_some (IsEdns0_of_last_OPT hm hpost)
    rw [UDPSize_of_lt hS] at h
    exact ⟨h, fun _ => by rw [h]; exact le_max_left _ _⟩
  · intro h
    exact getUDPSize_none (IsEdns0_of_no_OPT h)
  · intro c h
    rw [getUDPSize_some h]
    rfl
  · cases h : IsEdns0 m with
    | none => rw [getUDPSize_none h]
    | some c => rw [getUDPSize_some h]; exact le_max_right _ _
  · cases h : IsEdns0 m with
    | none => rw [getUDPSize_none h]; decide
    | some c =>
      rw [getUDPSize_some h]
      have := UDPSize_lt c
      omega

/-- Witness of C1: a query whose additional section ends in an OPT record
advertising 4096 bytes gets the limit 4096, one advertising 100 bytes and one
without OPT record get 512. -/
theorem getUDPSize_spec_witness :
    (4096 : Nat) < 65536 ∧
    getUDPSize { Id := 7, Extra := [RR.other 1, RR.OPT 4096] } = 4096 ∧
    getUDPSize { Id := 7, Extra := [RR.other 1] } = 512 ∧
    getUDPSize { Id := 7, Extra := [RR.OPT 100] } = 512 ∧
    getUDPSize { Id := 7, Extra := [RR.OPT 65535] } = 65535 :=
  ⟨by decide,
    ((getUDPSize_spec { Id := 7, Extra := [RR.other 1, RR.OPT 4096] }).2.2.1
      [RR.other 1] [] 4096 (by decide) rfl (by simp)).1,
    (getUDPSize_spec { Id := 7, Extra := [RR.other 1] }).2.2.2.1 (by simp),
    by decide, by decide⟩

/-! ## Listener supervisor -/

theorem length_beq_zero_iff (s : String) : (s.length == 0) = true ↔ s = "" := by
  rw [beq_iff_eq]
  constructor
  · intro h
    have hd : s.data = [] := List.length_eq_zero.mp h
    exact String.ext hd
  · rintro rfl
    rfl

/-- C4: a listener configuration whose protocol tag is none of the known ones
makes `startServerListener` return an error after at most the log line
"starting server": no socket is asked for and no serve loop is attached; and
when the bind address is not empty and the HTTP handler was built, the error
is "unknown protocol: [tag]". -/
theorem startServerListener_unknown_protocol (env : Env) (cfg : ServerListenerConfig)
    (dnsHandler : Option Handler) (socketFile : String) (tr : Trace)
    (h : cfg.Protocol ∉ ["", "udp", "tcp", "tls", "dot", "http", "https", "doh"]) :
    (∃ err, (startServerListener env cfg dnsHandler socketFile tr).1 = some err) ∧
    (∃ log, (startServerListener env cfg dnsHandler socketFile tr).2 = tr ++ log ∧
      (∀ e ∈ log, e.bindsSocket = false ∧ e.attachesLoop = false) ∧
      (log = [] ∨ log = [Event.loggerInfo "starting server"
        [("proto", cfg.Protocol), ("addr", cfg.Addr)]])) ∧
    (cfg.Addr ≠ "" →
      ∀ httpHandler,
        env.NewHandler { DNSHandler := dnsHandler, Path := cfg.URLPath,
                         SrcIPHeader := cfg.GetUserIPFromHeader } = Except.ok httpHandler →
        (startServerListener env cfg dnsHandler socketFile tr).1 =
          some (GoError.errorsNew ("unknown protocol: [" ++ cfg.Protocol ++ "]"))) := by
  simp only [List.mem_cons, List.mem_singleton, not_or, List.not_mem_nil, or_false] at h
  obtain ⟨h1, h2, h3, h4, h5, h6, h7, h8⟩ := h
  by_cases ha : (cfg.Addr.length == 0) = true
  · have ha' := (length_beq_zero_iff _).mp ha
    simp only [startServerListener, ha, if_true]
    exact ⟨⟨_, rfl⟩, ⟨[], by simp, by simp, Or.inl rfl⟩, fun hne => absurd ha' hne⟩
  · rcases hh : env.NewHandler ⟨dnsHandler, cfg.URLPath, cfg.GetUserIPFromHeader⟩ with err | hd
    · simp only [startServerListener, ha, hh]
      refine ⟨⟨_, rfl⟩, ⟨_, rfl, ?_, Or.inr rfl⟩, ?_⟩
      · intro e he
        rw [List.mem_singleton] at he
        subst he
        exact ⟨rfl, rfl⟩
      · intro _ httpHandler hcontra
        cases hcontra
    · simp only [startServerListener, ha, hh, h1, h2, h3, h4, h5, h6, h7, h8, or_self,
        if_false]
      refine ⟨⟨_, rfl⟩, ⟨_, rfl, ?_, Or.inr rfl⟩, ?_⟩
      · intro e he
        rw [List.mem_singleton] at he
        subst he
        exact ⟨rfl, rfl⟩
      · intro _ httpHandler _
        trivial

/-- Witness of C4: the tag "quic" on ":53" is rejected by name. -/
theorem startServerListener_unknown_protocol_witness :
    (listenerConfig "quic" ":53" false).Protocol ∉
      ["", "udp", "tcp", "tls", "dot", "http", "https", "doh"] ∧
    (startServerListener Env.allOk (listenerConfig "quic" ":53" false) none
      "/tmp/go-unix-socket" []).1 = some (GoError.errorsNew "unknown protocol: [quic]") :=
  ⟨by decide,
    (startServerListener_unknown_protocol Env.allOk (listenerConfig "quic" ":53" false) none
      "/tmp/go-unix-socket" [] (by decide)).2.2 (by decide) { id := 0 } rfl⟩

theorem mapIndex_eq_none {execs : List (String × Option Executable)} {key : String}
    (h : ∀ v, (key, v) ∉ execs) : mapIndex execs key = none := by
  unfold mapIndex
  cases hf : execs.find? (fun kv => kv.1 == key) with
  | none => rfl
  | some kv =>
    exfalso
    have hmem := List.mem_of_find?_eq_some hf
    have hk := List.find?_some hf
    simp only [beq_iff_eq] at hk
    apply h kv.2
    rw [← hk]
    exact hmem

/-- C5: `startServers` returns an error and does nothing (its trace is empty:
no listener is started, no socket asked for, no serve loop attached) when the
listener list is empty, else when the entry name is empty, else when the
entry name is no key of `m.execs`; the errors are "no server listener is
configured", "empty entry" and "cannot find entry NAME", in that order of
precedence. -/
theorem startServers_fails_fast (env : Env) (execs : List (String × Option Executable))
    (cfg : ServerConfig) :
    (cfg.Listeners = [] →
      startServers env execs cfg =
        (some (GoError.errorsNew "no server listener is configured"), [])) ∧
    (cfg.Listeners ≠ [] → cfg.Exec = "" →
      startServers env execs cfg = (some (GoError.errorsNew "empty entry"), [])) ∧
    (cfg.Listeners ≠ [] → cfg.Exec ≠ "" → (∀ v, (cfg.Exec, v) ∉ execs) →
      startServers env execs cfg =
        (some (GoError.errorsNew ("cannot find entry " ++ cfg.Exec)), [])) := by
  refine ⟨?_, ?_, ?_⟩
  · intro h
    simp [startServers, h]
  · intro h1 h2
    have hl : ¬ (cfg.Listeners.length == 0) = true := by
      simpa [List.length_eq_zero] using h1
    simp [startServers, hl, h2]
  · intro h1 h2 h3
    have hl : ¬ (cfg.Listeners.length == 0) = true := by
      simpa [List.length_eq_zero] using h1
    have he : ¬ (cfg.Exec.length == 0) = true := by
      rw [length_beq_zero_iff]
      exact h2
    simp only [startServers, hl, he, mapIndex_eq_none h3]
    rfl

/-- Witness of C5: with one UDP listener and the pipeline "main" registered,
the entry name "other" is not found; with no listener the first error wins
even though the entry name is empty too. -/
theorem startServers_fails_fast_witness :
    startServers Env.allOk [("main", some { id := 1 })]
        { Exec := "other", Timeout := 0, Listeners := [listenerConfig "udp" ":53" false] } =
      (some (GoError.errorsNew "cannot find entry other"), []) ∧
    startServers Env.allOk [("main", some { id := 1 })]
        { Exec := "", Timeout := 0, Listeners := [listenerConfig "udp" ":53" false] } =
      (some (GoError.errorsNew "empty entry"), []) ∧
    startServers Env.allOk [("main", some { id := 1 })]
        { Exec := "", Timeout := 0, Listeners := [] } =
      (some (GoError.errorsNew "no server listener is configured"), []) :=
  ⟨(startServers_fails_fast Env.allOk [("main", some { id := 1 })]
      { Exec := "other", Timeout := 0, Listeners := [listenerConfig "udp" ":53" false] }).2.2
      (by simp) (by decide) (by simp),
    (startServers_fails_fast Env.allOk [("main", some { id := 1 })]
      { Exec := "", Timeout := 0, Listeners := [listenerConfig "udp" ":53" false] }).2.1
      (by simp) rfl,
    (startServers_fails_fast Env.allOk [("main", some { id := 1 })]
      { Exec := "", Timeout := 0, Listeners := [] }).1 rfl⟩

theorem createUnixListener_trace_length (env : Env) (network address : String) (tr : Trace) :
    tr.length < (createUnixListener env network address tr).2.length := by
  unfold createUnixListener
  simp only
  repeat' split
  all_goals simp only [List.length_append, List.length_singleton]
  all_goals omega

theorem startServerListener_trace_length (env : Env) (cfg : ServerListenerConfig)
    (dnsHandler : Option Handler) (socketFile : String) (tr : Trace)
    (ha : ¬ (cfg.Addr.length == 0) = true) :
    tr.length < (startServerListener env cfg dnsHandler socketFile tr).2.length := by
  have hu := createUnixListener_trace_length env "unix" socketFile
    (tr ++ [Event.loggerInfo "starting server" [("proto", cfg.Protocol), ("addr", cfg.Addr)]])
  simp only [List.length_append, List.length_singleton] at hu
  simp only [startServerListener, ha, attachRun]
  repeat' split
  all_goals simp only [List.length_append, List.length_singleton]
  all_goals first
    | omega
    | contradiction

/-- C6 as stated fails: a listener with protocol "http" and an empty bind
address, on which the Unix-domain socket path would stand in for the address,
is rejected with "no address to bind" (and so is "tcp" with the Unix flag), so
the rejection is not limited to listeners without a substitute path. -/
theorem startServerListener_unix_empty_addr_rejected :
    startServerListener Env.allOk (listenerConfig "http" "" false) none
        "/tmp/go-unix-socket" [] = (some (GoError.errorsNew "no address to bind"), []) ∧
    startServerListener Env.allOk (listenerConfig "tcp" "" true) none
        "/tmp/go-unix-socket" [] = (some (GoError.errorsNew "no address to bind"), []) ∧
    ¬ ((startServerListener Env.allOk (listenerConfig "http" "" false) none
          "/tmp/go-unix-socket" []).1 = some (GoError.errorsNew "no address to bind") ↔
        ((listenerConfig "http" "" false).Addr = "" ∧
          ¬ ((listenerConfig "http" "" false).Protocol = "http" ∨
            ((listenerConfig "http" "" false).Protocol = "tcp" ∧
              (listenerConfig "http" "" false).Unix = true)))) := by
  refine ⟨rfl, rfl, ?_⟩
  decide

/-- C6 amended: `startServerListener` stops at its address check, returning
"no address to bind" with nothing logged, bound or attached, exactly when the
bind address is empty, whatever the protocol tag and the Unix flag. -/
theorem startServerListener_no_address_iff (env : Env) (cfg : ServerListenerConfig)
    (dnsHandler : Option Handler) (socketFile : String) (tr : Trace) :
    startServerListener env cfg dnsHandler socketFile tr =
        (some (GoError.errorsNew "no address to bind"), tr) ↔ cfg.Addr = "" := by
  constructor
  · intro h
    by_contra hne
    have ha : ¬ (cfg.Addr.length == 0) = true := by
      rw [length_beq_zero_iff]
      exact hne
    have hlen := startServerListener_trace_length env cfg dnsHandler socketFile tr ha
    rw [h] at hlen
    exact Nat.lt_irrefl _ hlen
  · intro h
    have ha : (cfg.Addr.length == 0) = true := (length_beq_zero_iff _).mpr h
    simp only [startServerListener, ha, if_true]

/-! ## The attached serve loop -/

/-- C7: for the closure attached by `startServerListener`: when `run()` has
returned `r` (nil or an error) and the close signal has not fired, the calls
are exactly `SendCloseSignal(fmt.Errorf("server exited, %w", r))` and then
`done()`, and for an error `e` the cause has the text "server exited, " ++
e.Error() and unwraps to `e`; when the close-signal case is taken (the only
one possible while `run()` has not returned and the signal has fired), the
only call is `done()`; whichever case is taken, `done()` is called exactly
once and `SendCloseSignal` at most once. -/
theorem attached_close_signal :
    (∀ r pick, attachedRun (some r) false pick =
      some [ScCall.SendCloseSignal (fmtErrorfW "server exited, " r), ScCall.done]) ∧
    (∀ e, (fmtErrorfW "server exited, " (some e)).Unwrap = some e ∧
      (fmtErrorfW "server exited, " (some e)).Error = "server exited, " ++ e.Error) ∧
    attached SelectCase.closeSignal = [ScCall.done] ∧
    (∀ pick, attachedRun none true pick = some [ScCall.done]) ∧
    (∀ pick, attachedRun none false pick = none) ∧
    (∀ sel, (attached sel).count ScCall.done = 1 ∧
      ((attached sel).filter (fun c => c != ScCall.done)).length ≤ 1) := by
  refine ⟨?_, ?_, rfl, ?_, ?_, ?_⟩
  · intro r pick
    simp [attachedRun, selectReady, attached]
  · intro e
    exact ⟨rfl, rfl⟩
  · intro pick
    simp [attachedRun, selectReady, attached]
  · intro pick
    simp [attachedRun, selectReady]
  · intro sel
    cases sel with
    | errChan err => simp [attached]
    | closeSignal => simp [attached]

/-! ## Memory cache -/

theorem evictOldest_eq_take (n : Nat) (l : List Elem) :
    evictOldest n l = l.take (l.length - n) := by
  induction n generalizing l with
  | zero => simp [evictOldest]
  | succ n ih =>
    rw [evictOldest, ih, List.dropLast_eq_take, List.take_take, List.length_take]
    congr 1
    omega

theorem MemCache.Store_capacity (c : MemCache) (key : String) (v : Bytes) (t0 t1 : Time) :
    (c.Store key v t0 t1).capacity = c.capacity := rfl

theorem MemCache.Store_Len_le (c : MemCache) (hc : 0 < c.capacity) (key : String) (v : Bytes)
    (t0 t1 : Time) : (c.Store key v t0 t1).Len ≤ c.capacity := by
  have hne : ¬ c.capacity = 0 := by omega
  simp only [MemCache.Store, MemCache.Len, hne, if_false, evictOldest_eq_take,
    List.length_take, List.length_cons]
  generalize (c.lru.filter (fun x => x.key != key)).length = m
  have h : m + 1 - (m + 1 - c.capacity) ≤ c.capacity := by omega
  exact Nat.le_trans (Nat.min_le_left _ _) h

theorem MemCache.storeAll_capacity (calls : List StoreCall) (c : MemCache) :
    (c.storeAll calls).capacity = c.capacity := by
  induction calls generalizing c with
  | nil => rfl
  | cons s rest ih => rw [MemCache.storeAll, ih, MemCache.Store_capacity]

theorem MemCache.storeAll_Len_le (calls : List StoreCall) (c : MemCache)
    (hc : 0 < c.capacity) (hl : c.Len ≤ c.capacity) :
    (c.storeAll calls).Len ≤ c.capacity := by
  induction calls generalizing c with
  | nil => exact hl
  | cons s rest ih =>
    rw [MemCache.storeAll]
    have h := ih (c.Store s.key s.v s.storedTime s.expirationTime)
      (by rw [MemCache.Store_capacity]; exact hc)
      (by rw [MemCache.Store_capacity]; exact MemCache.Store_Len_le c hc _ _ _ _)
    rw [MemCache.Store_capacity] at h
    exact h

/-- C2: for a cache built by `NewMemCache` with a positive capacity `C`, after
every `Store` of any sequence of `Store` calls `Len()` is at most `C`; in
particular `Len()` is at most 1024 after the 4096 stores of distinct keys of
`Test_memCache` into a cache of capacity 1024. -/
theorem MemCache_Len_le_capacity (C : Nat) (hC : 0 < C) (cleanerInterval : Int)
    (calls : List StoreCall) :
    (∀ n, ((NewMemCache C cleanerInterval).storeAll (calls.take n)).Len ≤ C) ∧
    (∀ now, ((NewMemCache 1024 0).storeAll (Test_memCache.stores now)).Len ≤ 1024) := by
  constructor
  · intro n
    exact MemCache.storeAll_Len_le (calls.take n) (NewMemCache C cleanerInterval) hC
      (Nat.zero_le _)
  · intro now
    exact MemCache.storeAll_Len_le (Test_memCache.stores now) (NewMemCache 1024 0)
      (by decide) (Nat.zero_le _)

/-- Witness of C2: three distinct keys stored into a cache of capacity 2 leave
two entries. -/
theorem MemCache_Len_le_capacity_witness :
    0 < 2 ∧
    ((NewMemCache 2 0).storeAll
      ([⟨"0", [0], 5, 9⟩, ⟨"1", [1], 6, 9⟩, ⟨"2", [2], 7, 9⟩].take 3)).Len ≤ 2 ∧
    ((NewMemCache 2 0).storeAll
      [⟨"0", [0], 5, 9⟩, ⟨"1", [1], 6, 9⟩, ⟨"2", [2], 7, 9⟩]).Len = 2 :=
  ⟨by decide,
    (MemCache_Len_le_capacity 2 (by decide) 0
      [⟨"0", [0], 5, 9⟩, ⟨"1", [1], 6, 9⟩, ⟨"2", [2], 7, 9⟩]).1 3,
    by decide⟩

theorem MemCache.Store_lru (c : MemCache) (hc : 1 ≤ c.capacity) (key : String) (v : Bytes)
    (t0 t1 : Time) :
    ∃ rest, (c.Store key v t0 t1).lru =
      { key := key, v := v, storedTime := t0, expirationTime := t1 } :: rest := by
  have hne : ¬ c.capacity = 0 := by omega
  simp only [MemCache.Store, hne, if_false, evictOldest_eq_take, List.length_cons]
  obtain ⟨n, hn⟩ : ∃ n, (c.lru.filter (fun x => x.key != key)).length + 1 -
      ((c.lru.filter (fun x => x.key != key)).length + 1 - c.capacity) = n + 1 :=
    ⟨(c.lru.filter (fun x => x.key != key)).length + 1 -
      ((c.lru.filter (fun x => x.key != key)).length + 1 - c.capacity) - 1, by omega⟩
  rw [hn, List.take_succ_cons]
  exact ⟨_, rfl⟩

/-- C3: on a cache of capacity at least 1, whatever it holds, `Store(k, v, t0,
t1)` with `t0 ≤ t1` followed by `Get(k)` at a current time before `t1`
returns the value `v`, the stored-at time `t0` and found = true. -/
theorem MemCache_Store_Get (c : MemCache) (hc : 1 ≤ c.capacity) (k : String) (v : Bytes)
    (t0 t1 now : Time) (_ht : t0 ≤ t1) (hnow : now < t1) :
    ((c.Store k v t0 t1).Get now k).1 = (v, t0, true) := by
  obtain ⟨rest, hrest⟩ := MemCache.Store_lru c hc k v t0 t1
  have hexp : ¬ t1 < now := Int.not_lt.mpr (Int.le_of_lt hnow)
  simp [MemCache.Get, hrest, hexp]

/-- Witness of C3: the first round of `Test_memCache` on a cache that already
holds the key with another value: value `[5]` stored for key "5" at time 10
until time 210 is read back at time 11. -/
theorem MemCache_Store_Get_witness :
    1 ≤ (MemCache.mk 1 0 [⟨"5", [4], 0, 3⟩]).capacity ∧
    (10 : Time) ≤ 210 ∧ (11 : Time) < 210 ∧
    (((MemCache.mk 1 0 [⟨"5", [4], 0, 3⟩]).Store "5" [5] 10 210).Get 11 "5").1 =
      ([5], 10, true) :=
  ⟨by decide, by decide, by decide,
    MemCache_Store_Get (MemCache.mk 1 0 [⟨"5", [4], 0, 3⟩]) (by decide) "5" [5] 10 210 11
      (by decide) (by decide)⟩

/-! ## UDP transport loop -/

/-- A loop that is blocked after the reads `pre` has ended its events with the
pending `readFrom`, and goes on from there when more reads arrive. -/
theorem ServeUDP.loop_append (env : UDPEnv) (w : cmcUDPConn) (blen : Nat)
    (pre : List SockRead) (i : Nat) (ev : List UDPEvent)
    (h : (ServeUDP.loop env w blen i pre ev).1 = none) :
    ∃ ev', (ServeUDP.loop env w blen i pre ev).2 = ev' ++ [UDPEvent.readFrom (i + pre.length)] ∧
      ∀ rest, ServeUDP.loop env w blen i (pre ++ rest) ev =
        ServeUDP.loop env w blen (i + pre.length) rest ev' := by
  induction pre generalizing i ev with
  | nil => exact ⟨ev, rfl, fun rest => rfl⟩
  | cons r pre ih =>
    cases r with
    | failed err closed =>
      simp only [ServeUDP.loop] at h
      split at h <;> cases h
    | packet p =>
      simp only [ServeUDP.loop] at h
      simp only [List.cons_append, ServeUDP.loop, List.length_cons]
      rcases hsplit : env.SplitHostPort (w.readFrom blen p).src with err | ⟨clientAddr, port⟩
      · simp [hsplit] at h
      · simp only [hsplit] at h ⊢
        rcases hun : env.Unpack (p.payload.take (w.readFrom blen p).n) with err | q
        · simp only [hun] at h ⊢
          obtain ⟨ev', h1, h2⟩ := ih (i + 1) _ h
          refine ⟨ev', ?_, ?_⟩
          · rw [h1]
            congr 3
            omega
          · intro rest
            refine (h2 rest).trans ?_
            congr 1
            omega
        · simp only [hun] at h ⊢
          obtain ⟨ev', h1, h2⟩ := ih (i + 1) _ h
          refine ⟨ev', ?_, ?_⟩
          · rw [h1]
            congr 3
            omega
          · intro rest
            refine (h2 rest).trans ?_
            congr 1
            omega

/-- A call of `ServeUDP` that is blocked in `readFrom` has a handler, was
tracked, has its adapter, and is the read loop started at read 0. -/
theorem ServeUDP_blocked (env : UDPEnv) (s : Server) (c : Socket) (trackOk : Bool)
    (pre : List SockRead) (h : (ServeUDP env s c trackOk pre).1 = none) :
    ∃ handler w ev0, s.opts.DNSHandler = some handler ∧ trackOk = true ∧
      (ServeUDP.chooseCmc env c).1 = Except.ok w ∧
      ∀ reads, ServeUDP env s c trackOk reads =
        ServeUDP.finish (ServeUDP.loop env w (64 * 1024) 0 reads ev0) := by
  unfold ServeUDP at h
  cases hh : s.opts.DNSHandler with
  | none => simp [hh] at h
  | some handler =>
    cases trackOk with
    | false => simp [hh] at h
    | true =>
      rcases hc : ServeUDP.chooseCmc env c with ⟨r, ev'⟩
      cases r with
      | error err => simp [hh, hc, ServeUDP.finish] at h
      | ok w =>
        refine ⟨handler, w, [UDPEvent.trackCloser true] ++ [UDPEvent.GetBuf (64 * 1024)] ++ ev',
          rfl, rfl, rfl, ?_⟩
        intro reads
        simp only [ServeUDP, hh, hc, Bool.not_true, Bool.false_eq_true, if_false]

theorem ServeUDP.finish_none {r : Option Return × List UDPEvent}
    (h : (ServeUDP.finish r).1 = none) : r.1 = none ∧ ServeUDP.finish r = r := by
  rcases r with ⟨ret, ev⟩
  cases ret with
  | none => exact ⟨rfl, rfl⟩
  | some x => simp [ServeUDP.finish] at h

/-- C8: `ServeUDP` returns `errMissingDNSHandler` before any read when the
handler is nil, and `ErrServerClosed` before any read when `trackCloser`
reports the server closed. When the loop has consumed the reads `pre` and the
next read fails with `err`, the call returns `ErrServerClosed` if the server
is marked closed at that moment, else an error that wraps `err` with the text
"unexpected read err: " ++ err.Error() and is not `ErrServerClosed`; the loop
ends: nothing is dispatched for that read, only the deferred calls follow, and
later reads are not looked at. -/
theorem ServeUDP_read_error (env : UDPEnv) (s : Server) (c : Socket) :
    (s.opts.DNSHandler = none → ∀ trackOk reads,
      ServeUDP env s c trackOk reads =
        (some (Return.value GoError.errMissingDNSHandler), [UDPEvent.Close])) ∧
    (s.opts.DNSHandler ≠ none → ∀ reads,
      ServeUDP env s c false reads =
        (some (Return.value GoError.ErrServerClosed),
          [UDPEvent.trackCloser true, UDPEvent.Close])) ∧
    (∀ trackOk pre err closed rest, (ServeUDP env s c trackOk pre).1 = none →
      ServeUDP env s c trackOk (pre ++ SockRead.failed err closed :: rest) =
        (some (Return.value
            (if closed then GoError.ErrServerClosed
             else GoError.wrapError ("unexpected read err: " ++ err.Error) err)),
          (ServeUDP env s c trackOk pre).2 ++ ServeUDP.deferred) ∧
      GoError.wrapError ("unexpected read err: " ++ err.Error) err ≠ GoError.ErrServerClosed ∧
      (GoError.wrapError ("unexpected read err: " ++ err.Error) err).Unwrap = some err) := by
  refine ⟨?_, ?_, ?_⟩
  · intro h trackOk reads
    simp [ServeUDP, h]
  · intro h reads
    cases hh : s.opts.DNSHandler with
    | none => exact absurd hh h
    | some handler => simp [ServeUDP, hh]
  · intro trackOk pre err closed rest hpre
    refine ⟨?_, by simp, rfl⟩
    obtain ⟨handler, w, ev0, _, _, _, hrun⟩ := ServeUDP_blocked env s c trackOk pre hpre
    rw [hrun] at hpre
    obtain ⟨hnone, hfin⟩ := ServeUDP.finish_none hpre
    obtain ⟨ev', h1, h2⟩ := ServeUDP.loop_append env w (64 * 1024) pre 0 ev0 hnone
    rw [hrun (pre ++ SockRead.failed err closed :: rest), hrun pre, hfin, h2, h1]
    cases closed with
    | true => simp [ServeUDP.loop, ServeUDP.finish]
    | false => simp [ServeUDP.loop, ServeUDP.finish, fmtErrorfW]

/-- Witness of C8: the first read fails with "use of closed network
connection" while the server is not marked closed, and while it is. -/
theorem ServeUDP_read_error_witness :
    (ServeUDP UDPEnv.sample Server.sample Socket.sample true []).1 = none ∧
    ServeUDP UDPEnv.sample Server.sample Socket.sample true
        ([] ++ SockRead.failed (GoError.ext "use of closed network connection") false :: []) =
      (some (Return.value (GoError.wrapError
          "unexpected read err: use of closed network connection"
          (GoError.ext "use of closed network connection"))),
        [UDPEvent.trackCloser true, UDPEvent.GetBuf 65536, UDPEvent.readFrom 0,
          UDPEvent.Release, UDPEvent.cancel, UDPEvent.trackCloser false, UDPEvent.Close]) ∧
    (ServeUDP UDPEnv.sample Server.sample Socket.sample true
        ([] ++ SockRead.failed (GoError.ext "use of closed network connection") true :: [])).1 =
      some (Return.value GoError.ErrServerClosed) :=
  ⟨rfl,
    ((ServeUDP_read_error UDPEnv.sample Server.sample Socket.sample).2.2 true []
      (GoError.ext "use of closed network connection") false [] rfl).1,
    congrArg Prod.fst
      ((ServeUDP_read_error UDPEnv.sample Server.sample Socket.sample).2.2 true []
        (GoError.ext "use of closed network connection") true [] rfl).1⟩

theorem cmcUDPConn.readFrom_src (w : cmcUDPConn) (blen : Nat) (p : Packet) :
    (w.readFrom blen p).src = p.src := by
  cases w <;> rfl

theorem cmcUDPConn.readFrom_n (w : cmcUDPConn) (blen : Nat) (p : Packet) :
    (w.readFrom blen p).n = min p.payload.length blen := by
  cases w <;> rfl

theorem taskEvents_append (env : UDPEnv) (handler : Handler) (a b : List UDPEvent) :
    taskEvents env handler (a ++ b) = taskEvents env handler a ++ taskEvents env handler b := by
  induction a with
  | nil => rfl
  | cons e a ih =>
    cases e <;> simp [taskEvents, ih]

theorem taskEvents_eq_nil (env : UDPEnv) (handler : Handler) (a : List UDPEvent)
    (h : ∀ e ∈ a, e.isGo = false) : taskEvents env handler a = [] := by
  induction a with
  | nil => rfl
  | cons e a ih =>
    have he := h e (List.mem_cons_self _ _)
    have ha := ih (fun x hx => h x (List.mem_cons_of_mem _ hx))
    cases e <;> simp_all [taskEvents, UDPEvent.isGo]

/-- One more datagram that unpacks, read by a blocked loop, is dispatched: the
loop starts its goroutine and blocks in the next read. -/
theorem ServeUDP_step_valid (env : UDPEnv) (s : Server) (c : Socket) (trackOk : Bool)
    (pre : List SockRead) (p : Packet) (clientAddr port : String) (q : Msg)
    (hpre : (ServeUDP env s c trackOk pre).1 = none)
    (haddr : env.SplitHostPort p.src = Except.ok (clientAddr, port))
    (hq : env.Unpack (p.payload.take (min p.payload.length (64 * 1024))) = Except.ok q) :
    ∃ w, (ServeUDP.chooseCmc env c).1 = Except.ok w ∧
      ServeUDP env s c trackOk (pre ++ [SockRead.packet p]) =
        (none, (ServeUDP env s c trackOk pre).2 ++
          [UDPEvent.go pre.length
              { q := q, clientAddr := clientAddr, localAddr := (w.readFrom (64 * 1024) p).dst,
                ifIndex := (w.readFrom (64 * 1024) p).IfIndex, remoteAddr := p.src },
            UDPEvent.readFrom (pre.length + 1)]) := by
  obtain ⟨handler, w, ev0, _, _, hw, hrun⟩ := ServeUDP_blocked env s c trackOk pre hpre
  rw [hrun] at hpre
  obtain ⟨hnone, hfin⟩ := ServeUDP.finish_none hpre
  obtain ⟨ev', h1, h2⟩ := ServeUDP.loop_append env w (64 * 1024) pre 0 ev0 hnone
  refine ⟨w, hw, ?_⟩
  rw [hrun (pre ++ [SockRead.packet p]), hrun pre, hfin, h2, h1]
  simp only [ServeUDP.loop, cmcUDPConn.readFrom_src, cmcUDPConn.readFrom_n, haddr, hq,
    ServeUDP.finish, Nat.zero_add, List.append_assoc, List.singleton_append,
    List.cons_append, List.nil_append]

/-- One more datagram that fails to unpack, read by a blocked loop, is logged
and skipped: the loop blocks in the next read. -/
theorem ServeUDP_step_malformed (env : UDPEnv) (s : Server) (c : Socket) (trackOk : Bool)
    (pre : List SockRead) (b : Packet)
    (hpre : (ServeUDP env s c trackOk pre).1 = none)
    (hb : env.malformed (64 * 1024) b = true) :
    ∃ fields, ServeUDP env s c trackOk (pre ++ [SockRead.packet b]) =
      (none, (ServeUDP env s c trackOk pre).2 ++
        [UDPEvent.loggerWarn "invalid msg" fields, UDPEvent.readFrom (pre.length + 1)]) := by
  obtain ⟨handler, w, ev0, _, _, hw, hrun⟩ := ServeUDP_blocked env s c trackOk pre hpre
  rw [hrun] at hpre
  obtain ⟨hnone, hfin⟩ := ServeUDP.finish_none hpre
  obtain ⟨ev', h1, h2⟩ := ServeUDP.loop_append env w (64 * 1024) pre 0 ev0 hnone
  unfold UDPEnv.malformed at hb
  rcases haddr : env.SplitHostPort b.src with e1 | ⟨clientAddr, port⟩
  · simp [haddr] at hb
  · rcases hq : env.Unpack (b.payload.take (min b.payload.length (64 * 1024))) with err | q
    · refine ⟨[Field.zapError err,
        Field.zapBinary "msg" (b.payload.take (min b.payload.length (64 * 1024))),
        Field.zapStringer "from" b.src], ?_⟩
      rw [hrun (pre ++ [SockRead.packet b]), hrun pre, hfin, h2, h1]
      simp only [ServeUDP.loop, cmcUDPConn.readFrom_src, cmcUDPConn.readFrom_n, haddr, hq,
        ServeUDP.finish, Nat.zero_add, List.append_assoc, List.singleton_append,
    List.cons_append, List.nil_append]
    · simp [haddr, hq] at hb

/-- Any finite number of datagrams that fail to unpack leave a blocked loop
blocked, and add no goroutine. -/
theorem ServeUDP_malformed_many (env : UDPEnv) (s : Server) (c : Socket) (trackOk : Bool)
    (bad : List Packet) (pre : List SockRead)
    (hpre : (ServeUDP env s c trackOk pre).1 = none)
    (hbad : ∀ b ∈ bad, env.malformed (64 * 1024) b = true) :
    (ServeUDP env s c trackOk (pre ++ bad.map SockRead.packet)).1 = none ∧
    ∃ added, (ServeUDP env s c trackOk (pre ++ bad.map SockRead.packet)).2 =
        (ServeUDP env s c trackOk pre).2 ++ added ∧
      ∀ e ∈ added, e.isGo = false := by
  induction bad generalizing pre with
  | nil =>
    simp only [List.map_nil, List.append_nil]
    exact ⟨hpre, [], by simp, by simp⟩
  | cons b bad ih =>
    obtain ⟨fields, hstep⟩ := ServeUDP_step_malformed env s c trackOk pre b hpre
      (hbad b (List.mem_cons_self _ _))
    have hpre' : (ServeUDP env s c trackOk (pre ++ [SockRead.packet b])).1 = none := by
      rw [hstep]
    obtain ⟨hnone, added, hadd, hgo⟩ := ih (pre ++ [SockRead.packet b]) hpre'
      (fun x hx => hbad x (List.mem_cons_of_mem _ hx))
    have hl : pre ++ (b :: bad).map SockRead.packet =
        pre ++ [SockRead.packet b] ++ bad.map SockRead.packet := by simp
    rw [hl]
    refine ⟨hnone, [UDPEvent.loggerWarn "invalid msg" fields,
      UDPEvent.readFrom (pre.length + 1)] ++ added, ?_, ?_⟩
    · rw [hadd, hstep, List.append_assoc]
    · intro e he
      simp only [List.cons_append, List.nil_append, List.mem_cons] at he
      rcases he with rfl | rfl | he
      · rfl
      · rfl
      · exact hgo e he

/-- C9: a datagram whose sender address parses and whose bytes fail to unpack,
read by the loop of `ServeUDP`, does not make the loop return: the loop logs
the warning "invalid msg", starts no goroutine for it (so no handler call and
no reply) and blocks in the next read. After any finite number of such
datagrams a datagram that unpacks to `q` is dispatched: its goroutine is
started, the goroutines are those started before plus this one, and it begins
by calling the handler with `q` and the sender host. -/
theorem ServeUDP_malformed_skipped (env : UDPEnv) (s : Server) (c : Socket) (trackOk : Bool)
    (pre : List SockRead) (hpre : (ServeUDP env s c trackOk pre).1 = none)
    (bad : List Packet) (hbad : ∀ b ∈ bad, env.malformed (64 * 1024) b = true) :
    (∀ b ∈ bad, ∃ fields, ServeUDP env s c trackOk (pre ++ [SockRead.packet b]) =
      (none, (ServeUDP env s c trackOk pre).2 ++
        [UDPEvent.loggerWarn "invalid msg" fields, UDPEvent.readFrom (pre.length + 1)])) ∧
    (ServeUDP env s c trackOk (pre ++ bad.map SockRead.packet)).1 = none ∧
    (∀ handler,
      taskEvents env handler (ServeUDP env s c trackOk (pre ++ bad.map SockRead.packet)).2 =
        taskEvents env handler (ServeUDP env s c trackOk pre).2) ∧
    (∀ p clientAddr port q, env.SplitHostPort p.src = Except.ok (clientAddr, port) →
      env.Unpack (p.payload.take (min p.payload.length (64 * 1024))) = Except.ok q →
      ∃ t, t.q = q ∧ t.clientAddr = clientAddr ∧ t.remoteAddr = p.src ∧
        ServeUDP env s c trackOk (pre ++ bad.map SockRead.packet ++ [SockRead.packet p]) =
          (none, (ServeUDP env s c trackOk (pre ++ bad.map SockRead.packet)).2 ++
            [UDPEvent.go (pre.length + bad.length) t,
              UDPEvent.readFrom (pre.length + bad.length + 1)]) ∧
        ∀ handler,
          taskEvents env handler
              (ServeUDP env s c trackOk
                (pre ++ bad.map SockRead.packet ++ [SockRead.packet p])).2 =
            taskEvents env handler (ServeUDP env s c trackOk pre).2 ++
              [handleQuery env handler (pre.length + bad.length) t] ∧
          (handleQuery env handler (pre.length + bad.length) t).head? =
            some (UDPEvent.ServeDNS q { ClientAddr := clientAddr })) := by
  obtain ⟨hnone, added, hadd, hgo⟩ := ServeUDP_malformed_many env s c trackOk bad pre hpre hbad
  have htasks : ∀ handler,
      taskEvents env handler (ServeUDP env s c trackOk (pre ++ bad.map SockRead.packet)).2 =
        taskEvents env handler (ServeUDP env s c trackOk pre).2 := by
    intro handler
    rw [hadd, taskEvents_append, taskEvents_eq_nil env handler added hgo, List.append_nil]
  refine ⟨?_, hnone, htasks, ?_⟩
  · intro b hb
    exact ServeUDP_step_malformed env s c trackOk pre b hpre (hbad b hb)
  · intro p clientAddr port q haddr hq
    obtain ⟨w, _, hstep⟩ := ServeUDP_step_valid env s c trackOk
      (pre ++ bad.map SockRead.packet) p clientAddr port q hnone haddr hq
    simp only [List.length_append, List.length_map] at hstep
    refine ⟨_, rfl, rfl, rfl, hstep, ?_⟩
    intro handler
    constructor
    · rw [hstep]
      simp only [taskEvents_append, htasks handler, taskEvents]
    · simp only [handleQuery]
      repeat' split
      all_goals rfl

/-- Witness of C9: two datagrams too short to unpack, then a query: the loop
is still blocked after the short ones, and the query is dispatched as the
third read. -/
theorem ServeUDP_malformed_skipped_witness :
    (ServeUDP UDPEnv.sample Server.sample Socket.sample true []).1 = none ∧
    (∀ b ∈ [Packet.short, Packet.short], UDPEnv.sample.malformed (64 * 1024) b = true) ∧
    (ServeUDP UDPEnv.sample Server.sample Socket.sample true
      ([] ++ [Packet.short, Packet.short].map SockRead.packet)).1 = none ∧
    ServeUDP UDPEnv.sample Server.sample Socket.sample true
        [SockRead.packet Packet.short, SockRead.packet Packet.short,
          SockRead.packet Packet.query] =
      (none,
        [UDPEvent.trackCloser true, UDPEvent.GetBuf 65536, UDPEvent.readFrom 0,
          UDPEvent.loggerWarn "invalid msg"
            [Field.zapError (GoError.ext "dns: overflow unpacking uint16"),
              Field.zapBinary "msg" [1, 2, 3], Field.zapStringer "from" "192.0.2.1:4000"],
          UDPEvent.readFrom 1,
          UDPEvent.loggerWarn "invalid msg"
            [Field.zapError (GoError.ext "dns: overflow unpacking uint16"),
              Field.zapBinary "msg" [1, 2, 3], Field.zapStringer "from" "192.0.2.1:4000"],
          UDPEvent.readFrom 2,
          UDPEvent.go 2
            { q := { Id := 7, Extra := [] }, clientAddr := "192.0.2.9", localAddr := [],
              ifIndex := 0, remoteAddr := "192.0.2.9:5000" },
          UDPEvent.readFrom 3]) :=
  ⟨rfl, by decide,
    (ServeUDP_malformed_skipped UDPEnv.sample Server.sample Socket.sample true [] rfl
      [Packet.short, Packet.short] (by decide)).2.1,
    by decide⟩

/-- The writes of a per-query goroutine. -/
theorem handleQuery_writes (env : UDPEnv) (handler : Handler) (i : Nat) (t : Task) :
    (handleQuery env handler i t).filter UDPEvent.isWrite =
      match env.ServeDNS handler i t.q { ClientAddr := t.clientAddr } with
      | (some r, none) =>
        match env.PackBuffer (env.Truncate r (getUDPSize t.q)) with
        | Except.ok b => [UDPEvent.writeTo b t.localAddr t.ifIndex t.remoteAddr]
        | Except.error _ => []
      | _ => [] := by
  simp only [handleQuery]
  rcases hs : env.ServeDNS handler i t.q { ClientAddr := t.clientAddr } with ⟨r, e⟩
  cases e with
  | some err => cases r <;> simp [UDPEvent.isWrite]
  | none =>
    cases r with
    | none => simp [UDPEvent.isWrite]
    | some r =>
      simp only
      rcases hp : env.PackBuffer (env.Truncate r (getUDPSize t.q)) with err | b
      · simp [UDPEvent.isWrite]
      · simp only
        cases env.writeTo i b t.localAddr t.ifIndex t.remoteAddr <;> simp [UDPEvent.isWrite]

/-- Every goroutine the loop starts belongs to a datagram it has read: the
read with the goroutine's index, whose sender, payload and control message
give the captured variables. -/
theorem ServeUDP.loop_go (env : UDPEnv) (w : cmcUDPConn) (blen : Nat)
    (reads : List SockRead) (i0 : Nat) (ev : List UDPEvent) (i : Nat) (t : Task)
    (h : UDPEvent.go i t ∈ (ServeUDP.loop env w blen i0 reads ev).2) :
    UDPEvent.go i t ∈ ev ∨
    (i0 ≤ i ∧ ∃ p port, reads[i - i0]? = some (SockRead.packet p) ∧
      env.SplitHostPort p.src = Except.ok (t.clientAddr, port) ∧
      env.Unpack (p.payload.take (min p.payload.length blen)) = Except.ok t.q ∧
      t.localAddr = (w.readFrom blen p).dst ∧ t.ifIndex = (w.readFrom blen p).IfIndex ∧
      t.remoteAddr = p.src) := by
  induction reads generalizing i0 ev with
  | nil =>
    simp only [ServeUDP.loop, List.mem_append, List.mem_singleton] at h
    rcases h with h | h
    · exact Or.inl h
    · cases h
  | cons r reads ih =>
    cases r with
    | failed err closed =>
      simp only [ServeUDP.loop] at h
      split at h
      all_goals
        simp only [List.mem_append, List.mem_singleton] at h
        rcases h with h | h
        · exact Or.inl h
        · cases h
    | packet p =>
      simp only [ServeUDP.loop, cmcUDPConn.readFrom_src, cmcUDPConn.readFrom_n] at h
      rcases hsplit : env.SplitHostPort p.src with err | ⟨clientAddr, port⟩
      · simp only [hsplit, List.mem_append, List.mem_singleton] at h
        rcases h with (h | h) | h
        · exact Or.inl h
        · cases h
        · cases h
      · simp only [hsplit] at h
        rcases hun : env.Unpack (p.payload.take (min p.payload.length blen)) with err | q
        · simp only [hun] at h
          rcases ih (i0 + 1) _ h with h | ⟨hle, p', port', hget, hrest⟩
          · simp only [List.mem_append, List.mem_singleton] at h
            rcases h with (h | h) | h
            · exact Or.inl h
            · cases h
            · cases h
          · refine Or.inr ⟨by omega, p', port', ?_, hrest⟩
            have hi : i - i0 = (i - (i0 + 1)) + 1 := by omega
            rw [hi, List.getElem?_cons_succ]
            exact hget
        · simp only [hun] at h
          rcases ih (i0 + 1) _ h with h | ⟨hle, p', port', hget, hrest⟩
          · simp only [List.mem_append, List.mem_singleton] at h
            rcases h with (h | h) | h
            · exact Or.inl h
            · cases h
            · simp only [UDPEvent.go.injEq] at h
              obtain ⟨rfl, rfl⟩ := h
              refine Or.inr ⟨Nat.le_refl _, p, port, ?_, hsplit, hun, rfl, rfl, rfl⟩
              simp
          · refine Or.inr ⟨by omega, p', port', ?_, hrest⟩
            have hi : i - i0 = (i - (i0 + 1)) + 1 := by omega
            rw [hi, List.getElem?_cons_succ]
            exact hget

/-- The read loop looks at address parsing and unpacking only. -/
theorem ServeUDP.loop_congr (env env' : UDPEnv) (w : cmcUDPConn) (blen : Nat)
    (h1 : env'.SplitHostPort = env.SplitHostPort) (h2 : env'.Unpack = env.Unpack)
    (reads : List SockRead) (i : Nat) (ev : List UDPEvent) :
    ServeUDP.loop env' w blen i reads ev = ServeUDP.loop env w blen i reads ev := by
  induction reads generalizing i ev with
  | nil => rfl
  | cons r reads ih =>
    cases r with
    | failed err closed => rfl
    | packet p =>
      simp only [ServeUDP.loop, h1, h2]
      repeat' split
      all_goals first
        | rfl
        | exact ih _ _

theorem ServeUDP_congr (env env' : UDPEnv) (h0 : env'.newCmc = env.newCmc)
    (h1 : env'.SplitHostPort = env.SplitHostPort) (h2 : env'.Unpack = env.Unpack)
    (s : Server) (c : Socket) (trackOk : Bool) (reads : List SockRead) :
    ServeUDP env' s c trackOk reads = ServeUDP env s c trackOk reads := by
  have hc : ServeUDP.chooseCmc env' c = ServeUDP.chooseCmc env c := by
    simp only [ServeUDP.chooseCmc, h0]
  simp only [ServeUDP, hc, ServeUDP.loop_congr env env' _ _ h1 h2]

theorem ServeUDP_go (env : UDPEnv) (s : Server) (c : Socket) (trackOk : Bool)
    (reads : List SockRead) (i : Nat) (t : Task)
    (h : UDPEvent.go i t ∈ (ServeUDP env s c trackOk reads).2) :
    ∃ w p port, (ServeUDP.chooseCmc env c).1 = Except.ok w ∧
      reads[i]? = some (SockRead.packet p) ∧
      env.SplitHostPort p.src = Except.ok (t.clientAddr, port) ∧
      env.Unpack (p.payload.take (min p.payload.length (64 * 1024))) = Except.ok t.q ∧
      t.localAddr = (w.readFrom (64 * 1024) p).dst ∧
      t.ifIndex = (w.readFrom (64 * 1024) p).IfIndex ∧
      t.remoteAddr = p.src := by
  unfold ServeUDP at h
  cases hh : s.opts.DNSHandler with
  | none => simp [hh] at h
  | some handler =>
    cases trackOk with
    | false => simp [hh] at h
    | true =>
      rcases hc : ServeUDP.chooseCmc env c with ⟨r, ev'⟩
      have hev' : UDPEvent.go i t ∉ ev' := by
        intro hmem
        unfold ServeUDP.chooseCmc at hc
        split at hc
        · split at hc
          all_goals
            simp only [Prod.mk.injEq] at hc
            obtain ⟨_, rfl⟩ := hc
            simp at hmem
        · simp only [Prod.mk.injEq] at hc
          obtain ⟨_, rfl⟩ := hc
          simp at hmem
      cases r with
      | error err =>
        simp only [hh, hc, ServeUDP.finish, ServeUDP.deferred, Bool.not_true,
          Bool.false_eq_true, if_false, List.mem_append, List.mem_cons, List.mem_singleton,
          List.not_mem_nil, or_false] at h
        rcases h with (h | h) | h
        · rcases h with h | h <;> cases h
        · exact absurd h hev'
        · rcases h with h | h | h | h <;> cases h
      | ok w =>
        simp only [hh, hc, Bool.not_true, Bool.false_eq_true, if_false] at h
        have hloop : UDPEvent.go i t ∈ (ServeUDP.loop env w (64 * 1024) 0 reads
            ([UDPEvent.trackCloser true] ++ [UDPEvent.GetBuf (64 * 1024)] ++ ev')).2 := by
          rcases hl : ServeUDP.loop env w (64 * 1024) 0 reads
            ([UDPEvent.trackCloser true] ++ [UDPEvent.GetBuf (64 * 1024)] ++ ev')
            with ⟨ret, evs⟩
          rw [hl] at h
          cases ret with
          | none => exact h
          | some x =>
            simp only [ServeUDP.finish, ServeUDP.deferred, List.mem_append, List.mem_cons,
              List.mem_singleton, List.not_mem_nil, or_false] at h
            rcases h with h | h
            · exact h
            · rcases h with h | h | h | h <;> cases h
        rcases ServeUDP.loop_go env w (64 * 1024) reads 0 _ i t hloop
          with h0 | ⟨_, p, port, hget, hrest⟩
        · simp only [List.mem_append, List.mem_singleton] at h0
          rcases h0 with (h0 | h0) | h0
          · cases h0
          · cases h0
          · exact absurd h0 hev'
        · exact ⟨w, p, port, rfl, by simpa using hget, hrest⟩

/-- C10: the per-query goroutine of a dispatched query `q` calls `cmc.writeTo`
at most once, and once exactly when the handler returns no error and a
non-nil answer `r` whose truncation to `getUDPSize q` packs; the bytes written
are that packed truncation, and the local IP, interface index and peer passed
to `writeTo` are the ones the goroutine captured, which for every goroutine
started by `ServeUDP` are those `readFrom` gave for the datagram of its own
read, the datagram `q` was unpacked from. A handler error or a nil answer
gives no write. The read loop does not depend on what the handler, the
truncation, the packing or the write do: its result and its own events are
the same whatever they answer. -/
theorem handleQuery_reply (env : UDPEnv) (handler : Handler) :
    (∀ i t, (handleQuery env handler i t).filter UDPEvent.isWrite =
      match env.ServeDNS handler i t.q { ClientAddr := t.clientAddr } with
      | (some r, none) =>
        match env.PackBuffer (env.Truncate r (getUDPSize t.q)) with
        | Except.ok b => [UDPEvent.writeTo b t.localAddr t.ifIndex t.remoteAddr]
        | Except.error _ => []
      | _ => []) ∧
    (∀ i t, ((handleQuery env handler i t).filter UDPEvent.isWrite).length ≤ 1) ∧
    (∀ i t, ((handleQuery env handler i t).filter UDPEvent.isWrite).length = 1 ↔
      ∃ r b, env.ServeDNS handler i t.q { ClientAddr := t.clientAddr } = (some r, none) ∧
        env.PackBuffer (env.Truncate r (getUDPSize t.q)) = Except.ok b) ∧
    (∀ s c trackOk reads i t, UDPEvent.go i t ∈ (ServeUDP env s c trackOk reads).2 →
      ∃ w p port, (ServeUDP.chooseCmc env c).1 = Except.ok w ∧
        reads[i]? = some (SockRead.packet p) ∧
        env.SplitHostPort p.src = Except.ok (t.clientAddr, port) ∧
        env.Unpack (p.payload.take (min p.payload.length (64 * 1024))) = Except.ok t.q ∧
        t.localAddr = (w.readFrom (64 * 1024) p).dst ∧
        t.ifIndex = (w.readFrom (64 * 1024) p).IfIndex ∧
        t.remoteAddr = p.src) ∧
    (∀ s c trackOk reads serveDNS truncate packBuffer writeTo,
      ServeUDP { env with ServeDNS := serveDNS, Truncate := truncate,
                          PackBuffer := packBuffer, writeTo := writeTo } s c trackOk reads =
        ServeUDP env s c trackOk reads) := by
  refine ⟨handleQuery_writes env handler, ?_, ?_, ?_, ?_⟩
  · intro i t
    rw [handleQuery_writes]
    repeat' split
    all_goals simp
  · intro i t
    rw [handleQuery_writes]
    rcases hs : env.ServeDNS handler i t.q { ClientAddr := t.clientAddr } with ⟨r, e⟩
    cases e with
    | some err => cases r <;> simp
    | none =>
      cases r with
      | none => simp
      | some r =>
        rcases hp : env.PackBuffer (env.Truncate r (getUDPSize t.q)) with err | b
        · simp [hp]
        · simp [hp]
  · intro s c trackOk reads i t h
    exact ServeUDP_go env s c trackOk reads i t h
  · intro s c trackOk reads serveDNS truncate packBuffer writeTo
    exact ServeUDP_congr env
      ⟨env.newCmc, env.SplitHostPort, env.Unpack, serveDNS, truncate, packBuffer, writeTo⟩
      rfl rfl rfl s c trackOk reads

/-- Witness of C10: in the run of two short datagrams and a query, the
goroutine started for the third read carries the peer of the third datagram,
and it writes the packed answer to that peer once. -/
theorem handleQuery_reply_witness :
    UDPEvent.go 2
        { q := { Id := 7, Extra := [] }, clientAddr := "192.0.2.9", localAddr := [],
          ifIndex := 0, remoteAddr := "192.0.2.9:5000" } ∈
      (ServeUDP UDPEnv.sample Server.sample Socket.sample true
        [SockRead.packet Packet.short, SockRead.packet Packet.short,
          SockRead.packet Packet.query]).2 ∧
    (∃ w p port, (ServeUDP.chooseCmc UDPEnv.sample Socket.sample).1 = Except.ok w ∧
      [SockRead.packet Packet.short, SockRead.packet Packet.short,
        SockRead.packet Packet.query][2]? = some (SockRead.packet p) ∧
      UDPEnv.sample.SplitHostPort p.src = Except.ok ("192.0.2.9", port) ∧
      UDPEnv.sample.Unpack (p.payload.take (min p.payload.length (64 * 1024))) =
        Except.ok { Id := 7, Extra := [] } ∧
      [] = (w.readFrom (64 * 1024) p).dst ∧ 0 = (w.readFrom (64 * 1024) p).IfIndex ∧
      "192.0.2.9:5000" = p.src) ∧
    (handleQuery UDPEnv.sample { id := 1 } 2
        { q := { Id := 7, Extra := [] }, clientAddr := "192.0.2.9", localAddr := [],
          ifIndex := 0, remoteAddr := "192.0.2.9:5000" }).filter UDPEvent.isWrite =
      [UDPEvent.writeTo [0, 7] [] 0 "192.0.2.9:5000"] :=
  ⟨by decide,
    (handleQuery_reply UDPEnv.sample { id := 1 }).2.2.2.1 Server.sample Socket.sample true
      [SockRead.packet Packet.short, SockRead.packet Packet.short, SockRead.packet Packet.query]
      2 { q := { Id := 7, Extra := [] }, clientAddr := "192.0.2.9", localAddr := [],
          ifIndex := 0, remoteAddr := "192.0.2.9:5000" } (by decide),
    by decide⟩

end Mosdns
